import Mathlib

/-!
Shallow embedding of the stock subsystem of the `backend-tienda` repository.

Embedded source files:
* `src/models/Stock.js` — the `Stock` collection schema: records keyed by the
  composite key (productId, size, color) with an integer `quantity` (min 0)
  and a unique index on the composite key.
* `src/routes/stockRoutes.js` — the `POST /check-stock` and
  `POST /update-stock` handlers.  The module requires only `express`,
  `express.Router()` and the `Stock` model; the identifier `mongoose` used by
  the `/update-stock` handler is not bound in the module.
* `src/server.js` — the legacy catalog stock handler
  `POST /api/products/:id/update-stock`, which dispatches on the product's
  `productType` and on the runtime shape of the `stock` field.

Stores are lists of records; Mongo's `findOne` is first-match search in
natural order, `findOneAndUpdate` with `{new: true}` updates the first
matching document and returns the post-update document.  Session-buffered
writes are modelled by threading a working store through the loop; commit
installs the working store, abort restores the store as it was at
`startTransaction`.  Each handler also returns the list of store operations
it performed, so that "no store access happened" is expressible.
-/

namespace Tienda

/-- An inventory record, as persisted by the `stockSchema` of
`src/models/Stock.js`: composite key (productId, size, color) plus an
integer quantity. -/
structure StockRecord where
  productId : String
  size : String
  color : String
  quantity : Int
deriving Repr, DecidableEq

/-- The Stock collection: a list of records in natural (insertion) order. -/
abbrev Store := List StockRecord

/-- The composite key of a record. -/
def rkey (r : StockRecord) : String × String × String :=
  (r.productId, r.size, r.color)

/-- The filter `{productId, size, color}` of the Mongo queries in
`src/routes/stockRoutes.js`. -/
def keyMatches (r : StockRecord) (pid sz c : String) : Bool :=
  r.productId == pid && r.size == sz && r.color == c

/-- The list of composite keys stored, in order. -/
def storeKeys (s : Store) : List (String × String × String) :=
  s.map rkey

/-- The unique compound index of `src/models/Stock.js` line 12:
no two records share a composite key. -/
def keysNodup (s : Store) : Prop :=
  (storeKeys s).Nodup

/-- The schema constraint `quantity: { min: 0 }`: every stored quantity is
non-negative. -/
def storeInv (s : Store) : Prop :=
  ∀ r ∈ s, 0 ≤ r.quantity

instance (s : Store) : Decidable (keysNodup s) := by
  unfold keysNodup
  infer_instance

instance (s : Store) : Decidable (storeInv s) := by
  unfold storeInv
  infer_instance

/-- One line of a request body: `{id, size, color, quantity}`. -/
structure Item where
  id : String
  size : String
  color : String
  quantity : Int
deriving Repr, DecidableEq

/-- `Stock.findOne({productId, size, color})`: the first record matching the
composite key, if any. -/
def findOne (s : Store) (pid sz c : String) : Option StockRecord :=
  match s with
  | [] => none
  | r :: rest => if keyMatches r pid sz c then some r else findOne rest pid sz c

/-- `Stock.findOneAndUpdate({productId, size, color, quantity: {$gte: a}},
{$inc: {quantity: -a}}, {new: true})`: decrement the first record that
matches the composite key and has quantity ≥ a, returning the post-update
document; on no match return `none` and leave the store unchanged. -/
def findOneAndUpdateDec (s : Store) (pid sz c : String) (a : Int) :
    Option StockRecord × Store :=
  match s with
  | [] => (none, [])
  | r :: rest =>
    if keyMatches r pid sz c = true ∧ a ≤ r.quantity then
      let r' : StockRecord := { r with quantity := r.quantity - a }
      (some r', r' :: rest)
    else
      let p := findOneAndUpdateDec rest pid sz c a
      (p.1, r :: p.2)

/-- A store operation performed by a handler. -/
inductive StoreOp where
  | read (pid sz c : String)
  | condDec (pid sz c : String) (amount : Int)
  | startTxn
deriving Repr, DecidableEq

/-- One entry of the `/check-stock` response array. -/
structure CheckResult where
  id : String
  size : String
  color : String
  available : Int
  requested : Int
deriving Repr, DecidableEq

/-- The `/check-stock` HTTP outcome: `res.json({success: true, results})`
or the catch-all `res.status(500).json({success: false, error})`. -/
inductive CheckResp where
  | ok (results : List CheckResult)
  | serverError (msg : String)
deriving Repr, DecidableEq

/-- The `for (const item of items)` loop of `/check-stock`
(`src/routes/stockRoutes.js` lines 12-26): one `findOne` per item, pushing
`{id, size, color, available: product ? product.quantity : 0,
requested: item.quantity}`. -/
def checkLoop (items : List Item) (s : Store) :
    List CheckResult × List StoreOp :=
  match items with
  | [] => ([], [])
  | item :: rest =>
    let product := findOne s item.id item.size item.color
    let entry : CheckResult :=
      { id := item.id, size := item.size, color := item.color,
        available := match product with
                     | some p => p.quantity
                     | none => 0,
        requested := item.quantity }
    let p := checkLoop rest s
    (entry :: p.1, StoreOp.read item.id item.size item.color :: p.2)

/-- The `POST /check-stock` handler (`src/routes/stockRoutes.js` lines 7-32).
`body = none` models a request body with no `items` field: the destructuring
yields `undefined` and the `for…of` throws a TypeError, caught by the
handler's catch, which answers HTTP 500 before any store access. -/
def checkStockHandler (body : Option (List Item)) (s : Store) :
    CheckResp × Store × List StoreOp :=
  match body with
  | none => (CheckResp.serverError "items is not iterable", s, [])
  | some items =>
    let p := checkLoop items s
    (CheckResp.ok p.1, s, p.2)

/-- One entry of the `/update-stock` success response:
`{id, size, color, newStock: result.quantity}`. -/
structure UpdateEntry where
  id : String
  size : String
  color : String
  newStock : Int
deriving Repr, DecidableEq

/-- The `/update-stock` HTTP outcome: `res.json({success: true, updates})`,
the catch branch `res.status(400).json({success: false, error})`, or an
uncaught ReferenceError thrown before the try block (no HTTP response is
produced in that case). -/
inductive UpdateResp where
  | ok (updates : List UpdateEntry)
  | clientError (msg : String)
  | refError (msg : String)
deriving Repr, DecidableEq

/-- Whether the handler answered `res.json({success: true, …})`. -/
def UpdateResp.isSuccess : UpdateResp → Bool
  | UpdateResp.ok _ => true
  | UpdateResp.clientError _ => false
  | UpdateResp.refError _ => false

/-- The error message of `src/routes/stockRoutes.js` line 56. -/
def updMsg (item : Item) : String :=
  "Stock insuficiente para " ++ item.id ++ "-" ++ item.size ++ "-" ++ item.color

/-- The `for (const item of items)` loop of `/update-stock`
(`src/routes/stockRoutes.js` lines 43-65) run against the session's working
store: each iteration performs the conditional decrement; a `null` result
throws `Stock insuficiente para id-size-color`, aborting the loop; otherwise
the update entry is pushed and the loop continues on the updated working
store.  Returns the loop outcome together with the operations performed. -/
def updateLoop (items : List Item) (s : Store) :
    Except String (List UpdateEntry × Store) × List StoreOp :=
  match items with
  | [] => (Except.ok ([], s), [])
  | item :: rest =>
    let op := StoreOp.condDec item.id item.size item.color item.quantity
    match findOneAndUpdateDec s item.id item.size item.color item.quantity with
    | (none, _) => (Except.error (updMsg item), [op])
    | (some r, s') =>
      match updateLoop rest s' with
      | (Except.ok (ups, sFin), tr) =>
        (Except.ok ({ id := item.id, size := item.size, color := item.color,
                      newStock := r.quantity } :: ups, sFin), op :: tr)
      | (Except.error m, tr) => (Except.error m, op :: tr)

/-- The module-scope bindings of `src/routes/stockRoutes.js` (lines 2-4):
`express`, `router` and `Stock`.  No binding for `mongoose` exists. -/
def stockRoutesRequires : List String :=
  ["express", "router", "Stock"]

/-- The `POST /update-stock` handler (`src/routes/stockRoutes.js` lines
35-75), parameterised by the identifiers bound in scope.  Its first
statement evaluates `mongoose.startSession()`: when `mongoose` is unbound
this throws a ReferenceError before the try block, so no transaction starts
and no store operation runs.  Otherwise a transaction is started, the item
loop runs on the session's working store, commit installs the working store
on success, and the catch aborts the transaction (restoring the store) and
answers HTTP 400 with the thrown message.  `body = none` models a request
body with no `items` field, whose `for…of` throws a TypeError inside the
try. -/
def updateStockHandler (env : List String) (body : Option (List Item))
    (s : Store) : UpdateResp × Store × List StoreOp :=
  if "mongoose" ∈ env then
    match body with
    | none => (UpdateResp.clientError "items is not iterable", s, [StoreOp.startTxn])
    | some items =>
      match updateLoop items s with
      | (Except.ok (ups, s'), tr) => (UpdateResp.ok ups, s', StoreOp.startTxn :: tr)
      | (Except.error m, tr) => (UpdateResp.clientError m, s, StoreOp.startTxn :: tr)
  else
    (UpdateResp.refError "mongoose is not defined", s, [])

/-- Unsatisfiability of one request line against a store, as the spec words
it: no matching inventory record, or the (first) matching record's quantity
is less than the requested amount. -/
def unsatAux : Option StockRecord → Int → Bool
  | none, _ => true
  | some r, q => decide (r.quantity < q)

/-- A line is unsatisfiable against `s` when `findOne` yields nothing or a
record with quantity below the requested amount. -/
def unsatisfiable (s : Store) (item : Item) : Bool :=
  unsatAux (findOne s item.id item.size item.color) item.quantity

/-!
Legacy catalog stock handler, `src/server.js` lines 189-284.

The product's `stock` field has schema type `Mixed`: at runtime it is a
number, an object keyed by strings, or an array.  Object values are either
objects carrying a `quantity` field or raw numbers.  The handlers run in
sloppy mode, so an assignment to a property of a number primitive (as in
`product.stock[key].quantity -= quantity` when the entry is a raw number)
is silently discarded, and the following `< 0` check reads `undefined`,
which is not `< 0`.
-/

/-- A value stored under a key of an object-shaped `stock` field: an object
`{quantity: n}` or a raw number `n`. -/
inductive StockEntry where
  | obj (quantity : Int)
  | num (n : Int)
deriving Repr, DecidableEq

/-- An element of an array-shaped `stock` field: optional `size` and
`talla` keys plus a quantity. -/
structure ArrEntry where
  size : Option String
  talla : Option String
  quantity : Int
deriving Repr, DecidableEq

/-- The runtime shape of a product's `stock` field, discriminated exactly
as the handler does: `Array.isArray`, then `typeof === 'object'`, then
`typeof === 'number'`. -/
inductive StockShape where
  | arr (xs : List ArrEntry)
  | byKey (m : List (String × StockEntry))
  | flat (n : Int)
deriving Repr, DecidableEq

/-- The `productType` enum of the Product schema. -/
inductive ProductType where
  | clothing
  | accessory
  | gloves
  | kneepads
deriving Repr, DecidableEq

/-- A catalog product, reduced to the fields the stock handler reads. -/
structure Product where
  id : String
  productType : ProductType
  stock : StockShape
deriving Repr, DecidableEq

/-- The legacy handler's HTTP outcome: `res.json({success: true})` or a
`res.status(400).send(msg)`. -/
inductive LegacyResp where
  | ok
  | badRequest (msg : String)
deriving Repr, DecidableEq

/-- JavaScript truthiness of an optional string: `undefined` and `""` are
falsy. -/
def truthyStr : Option String → Bool
  | none => false
  | some s => !(s == "")

/-- JavaScript truthiness of a stock entry: objects are always truthy, a
raw number is truthy iff non-zero. -/
def entryTruthy : StockEntry → Bool
  | StockEntry.obj _ => true
  | StockEntry.num n => !(n == 0)

/-- `toUpperCase`, modelled character-wise. -/
def strUpper (s : String) : String :=
  String.mk (s.data.map Char.toUpper)

/-- `size?.toUpperCase() || 'UNICA'`. -/
def sizeKeyOf : Option String → String
  | none => "UNICA"
  | some s => if s == "" then "UNICA" else strUpper s

/-- Assignment `obj[k] = e` for a key already present: replace the first
binding of `k`. -/
def setKey (m : List (String × StockEntry)) (k : String) (e : StockEntry) :
    List (String × StockEntry) :=
  match m with
  | [] => []
  | (k', e') :: rest =>
    if k' == k then (k', e) :: rest else (k', e') :: setKey rest k e

/-- The `findIndex` predicate of the gloves/kneepads array branch:
`item.size?.toUpperCase() === sizeKey || item.talla?.toUpperCase() === sizeKey`. -/
def matchesSize (e : ArrEntry) (k : String) : Bool :=
  (match e.size with
   | some s => strUpper s == k
   | none => false) ||
  (match e.talla with
   | some t => strUpper t == k
   | none => false)

/-- Outcome of one shape branch's decrement attempt. -/
inductive DecOut (α : Type) where
  | noMatch
  | insufficient
  | upd (x : α)
deriving Repr, DecidableEq

/-- The gloves/kneepads array branch (`src/server.js` lines 233-245):
`findIndex` on the size key, decrement in place, reject if negative. -/
def arrDec (xs : List ArrEntry) (k : String) (q : Int) :
    DecOut (List ArrEntry) :=
  match xs with
  | [] => DecOut.noMatch
  | e :: rest =>
    if matchesSize e k then
      let q' := e.quantity - q
      if q' < 0 then DecOut.insufficient
      else DecOut.upd ({ e with quantity := q' } :: rest)
    else
      match arrDec rest k q with
      | DecOut.noMatch => DecOut.noMatch
      | DecOut.insufficient => DecOut.insufficient
      | DecOut.upd rest' => DecOut.upd (e :: rest')

/-- The gloves/kneepads object branch (`src/server.js` lines 246-263): if
`stock[sizeKey]` is truthy, read its quantity (object or raw number),
reject if the decrement goes negative, otherwise write back in the same
encoding. -/
def keyDec (m : List (String × StockEntry)) (k : String) (q : Int) :
    DecOut (List (String × StockEntry)) :=
  match List.lookup k m with
  | none => DecOut.noMatch
  | some (StockEntry.obj n) =>
    let n' := n - q
    if n' < 0 then DecOut.insufficient
    else DecOut.upd (setKey m k (StockEntry.obj n'))
  | some (StockEntry.num n) =>
    if n == 0 then DecOut.noMatch
    else
      let n' := n - q
      if n' < 0 then DecOut.insufficient
      else DecOut.upd (setKey m k (StockEntry.num n'))

/-- The gloves/kneepads case of the legacy handler (`src/server.js` lines
229-271): array branch, then object branch, then number branch; a branch
that matches nothing leaves `updated` false. -/
def legacyGlovesBranch (st : StockShape) (sk : String) (q : Int) :
    LegacyResp × Option StockShape :=
  match st with
  | StockShape.arr xs =>
    match arrDec xs sk q with
    | DecOut.insufficient => (LegacyResp.badRequest "No hay suficiente stock", none)
    | DecOut.upd xs' => (LegacyResp.ok, some (StockShape.arr xs'))
    | DecOut.noMatch => (LegacyResp.badRequest "No se pudo actualizar el stock", none)
  | StockShape.byKey m =>
    match keyDec m sk q with
    | DecOut.insufficient => (LegacyResp.badRequest "No hay suficiente stock", none)
    | DecOut.upd m' => (LegacyResp.ok, some (StockShape.byKey m'))
    | DecOut.noMatch => (LegacyResp.badRequest "No se pudo actualizar el stock", none)
  | StockShape.flat n =>
    let n' := n - q
    if n' < 0 then (LegacyResp.badRequest "No hay suficiente stock", none)
    else (LegacyResp.ok, some (StockShape.flat n'))

/-- The `POST /api/products/:id/update-stock` handler (`src/server.js`
lines 189-284) on an existing product.  Returns the HTTP outcome and, when
`updated` ended up true, the stock value passed to `product.save()`
(`none` means no save — no mutation persisted). -/
def legacyUpdateStock (p : Product) (size color : Option String) (q : Int) :
    LegacyResp × Option StockShape :=
  match p.productType with
  | ProductType.clothing =>
    if !(truthyStr size && truthyStr color) then
      (LegacyResp.badRequest "Se requieren talla y color", none)
    else
      match p.stock with
      | StockShape.byKey m =>
        let key := (match size with | some s => s | none => "") ++ "-" ++
                   (match color with | some c => c | none => "")
        match List.lookup key m with
        | some (StockEntry.obj n) =>
          let n' := n - q
          if n' < 0 then (LegacyResp.badRequest "No hay suficiente stock", none)
          else (LegacyResp.ok, some (StockShape.byKey (setKey m key (StockEntry.obj n'))))
        | some (StockEntry.num n) =>
          if n == 0 then
            (LegacyResp.badRequest "No se pudo actualizar el stock", none)
          else
            (LegacyResp.ok, some (StockShape.byKey m))
        | none => (LegacyResp.badRequest "No se pudo actualizar el stock", none)
      | StockShape.arr _ => (LegacyResp.badRequest "No se pudo actualizar el stock", none)
      | StockShape.flat _ => (LegacyResp.badRequest "No se pudo actualizar el stock", none)
  | ProductType.accessory =>
    match p.stock with
    | StockShape.flat n =>
      let n' := n - q
      if n' < 0 then (LegacyResp.badRequest "No hay suficiente stock", none)
      else (LegacyResp.ok, some (StockShape.flat n'))
    | StockShape.byKey m =>
      match List.lookup "default" m with
      | some (StockEntry.obj n) =>
        let n' := n - q
        if n' < 0 then (LegacyResp.badRequest "No hay suficiente stock", none)
        else (LegacyResp.ok, some (StockShape.byKey (setKey m "default" (StockEntry.obj n'))))
      | some (StockEntry.num n) =>
        if n == 0 then
          (LegacyResp.badRequest "No se pudo actualizar el stock", none)
        else
          (LegacyResp.ok, some (StockShape.byKey m))
      | none => (LegacyResp.badRequest "No se pudo actualizar el stock", none)
    | StockShape.arr _ => (LegacyResp.badRequest "No se pudo actualizar el stock", none)
  | ProductType.gloves =>
    legacyGlovesBranch p.stock (sizeKeyOf size) q
  | ProductType.kneepads =>
    legacyGlovesBranch p.stock (sizeKeyOf size) q

/-!
Helper lemmas about the embedded operations.
-/

theorem keyMatches_iff (r : StockRecord) (pid sz c : String) :
    keyMatches r pid sz c = true ↔ rkey r = (pid, sz, c) := by
  simp [keyMatches, rkey, Prod.ext_iff, and_assoc]

theorem dec_none_eq (pid sz c : String) (a : Int) :
    ∀ s : Store, (findOneAndUpdateDec s pid sz c a).1 = none →
      (findOneAndUpdateDec s pid sz c a).2 = s := by
  intro s
  induction s with
  | nil => intro _; rfl
  | cons r rest ih =>
    intro h
    rw [findOneAndUpdateDec] at h ⊢
    split at h
    · simp at h
    · rename_i hc
      rw [if_neg hc]
      simp only
      rw [ih h]

theorem dec_keys (pid sz c : String) (a : Int) :
    ∀ s : Store, storeKeys (findOneAndUpdateDec s pid sz c a).2 = storeKeys s := by
  intro s
  induction s with
  | nil => rfl
  | cons r rest ih =>
    rw [findOneAndUpdateDec]
    split
    · simp [storeKeys, rkey]
    · simp only [storeKeys, List.map_cons] at ih ⊢
      rw [ih]

theorem dec_nodup (pid sz c : String) (a : Int) (s : Store)
    (h : keysNodup s) : keysNodup (findOneAndUpdateDec s pid sz c a).2 := by
  unfold keysNodup
  rw [dec_keys]
  exact h

theorem findOne_none_of_not_mem (pid sz c : String) :
    ∀ s : Store, (pid, sz, c) ∉ storeKeys s → findOne s pid sz c = none := by
  intro s
  induction s with
  | nil => intro _; rfl
  | cons r rest ih =>
    intro h
    simp only [storeKeys, List.map_cons, List.mem_cons, not_or] at h
    rw [findOne]
    have hk : ¬(keyMatches r pid sz c = true) := by
      intro hk
      exact h.1 ((keyMatches_iff r pid sz c).1 hk).symm
    rw [if_neg hk]
    exact ih (by simpa [storeKeys] using h.2)

theorem findOne_some_mem (pid sz c : String) :
    ∀ (s : Store) (r : StockRecord), findOne s pid sz c = some r →
      r ∈ s ∧ keyMatches r pid sz c = true := by
  intro s
  induction s with
  | nil => intro r h; simp [findOne] at h
  | cons r0 rest ih =>
    intro r h
    rw [findOne] at h
    split at h
    · rename_i hk
      obtain rfl : r0 = r := by simpa using h
      exact ⟨List.mem_cons_self _ _, hk⟩
    · obtain ⟨hm, hk⟩ := ih r h
      exact ⟨List.mem_cons_of_mem _ hm, hk⟩

theorem findOne_none_dec (pid sz c : String) (a : Int) :
    ∀ s : Store, findOne s pid sz c = none →
      (findOneAndUpdateDec s pid sz c a).1 = none := by
  intro s
  induction s with
  | nil => intro _; rfl
  | cons r rest ih =>
    intro h
    rw [findOne] at h
    rw [findOneAndUpdateDec]
    split at h
    · simp at h
    · rename_i hk
      rw [if_neg (fun hc => hk hc.1)]
      exact ih h


theorem keysNodup_cons (r : StockRecord) (rest : Store) :
    keysNodup (r :: rest) ↔ rkey r ∉ storeKeys rest ∧ keysNodup rest := by
  simp [keysNodup, storeKeys, List.nodup_cons]

theorem findOne_lt_dec (pid sz c : String) (a : Int) :
    ∀ (s : Store) (r : StockRecord), keysNodup s →
      findOne s pid sz c = some r → r.quantity < a →
      (findOneAndUpdateDec s pid sz c a).1 = none := by
  intro s
  induction s with
  | nil => intro r _ h; simp [findOne] at h
  | cons r0 rest ih =>
    intro r hnd h hlt
    obtain ⟨hout, hnd'⟩ := (keysNodup_cons r0 rest).1 hnd
    rw [findOne] at h
    rw [findOneAndUpdateDec]
    split at h
    · rename_i hk
      obtain rfl : r0 = r := by simpa using h
      rw [if_neg (fun hc => absurd hc.2 (not_le.2 hlt))]
      simp only
      apply findOne_none_dec
      apply findOne_none_of_not_mem
      rw [← (keyMatches_iff r0 pid sz c).1 hk]
      exact hout
    · rename_i hk
      rw [if_neg (fun hc => hk hc.1)]
      exact ih r hnd' h hlt

theorem dec_some_char (pid sz c : String) (a : Int) :
    ∀ (s : Store) (r' : StockRecord), keysNodup s →
      (findOneAndUpdateDec s pid sz c a).1 = some r' →
      ∃ r, findOne s pid sz c = some r ∧ a ≤ r.quantity ∧
        r' = { r with quantity := r.quantity - a } := by
  intro s
  induction s with
  | nil => intro r' _ h; simp [findOneAndUpdateDec] at h
  | cons r0 rest ih =>
    intro r' hnd h
    obtain ⟨hout, hnd'⟩ := (keysNodup_cons r0 rest).1 hnd
    rw [findOneAndUpdateDec] at h
    split at h
    · rename_i hc
      refine ⟨r0, ?_, hc.2, by simpa using h.symm⟩
      rw [findOne, if_pos hc.1]
    · rename_i hc
      simp only at h
      obtain ⟨r1, hf, hle, hr⟩ := ih r' hnd' h
      refine ⟨r1, ?_, hle, hr⟩
      rw [findOne]
      split
      · rename_i hk
        exfalso
        obtain ⟨hm, hk1⟩ := findOne_some_mem pid sz c rest r1 hf
        apply hout
        rw [(keyMatches_iff r0 pid sz c).1 hk, ← (keyMatches_iff r1 pid sz c).1 hk1]
        exact List.mem_map_of_mem rkey hm
      · exact hf

theorem dec_succeeds (pid sz c : String) (a : Int) :
    ∀ (s : Store) (r : StockRecord), findOne s pid sz c = some r →
      a ≤ r.quantity → (findOneAndUpdateDec s pid sz c a).1 ≠ none := by
  intro s
  induction s with
  | nil => intro r h; simp [findOne] at h
  | cons r0 rest ih =>
    intro r h hle
    rw [findOne] at h
    rw [findOneAndUpdateDec]
    split at h
    · rename_i hk
      obtain rfl : r0 = r := by simpa using h
      rw [if_pos ⟨hk, hle⟩]
      simp
    · rename_i hk
      rw [if_neg (fun hc => hk hc.1)]
      exact ih r h hle

theorem unsat_dec (pid sz c : String) (a : Int) (ha : 0 ≤ a) (w : Item) :
    ∀ s : Store, unsatisfiable s w = true →
      unsatisfiable (findOneAndUpdateDec s pid sz c a).2 w = true := by
  intro s
  induction s with
  | nil => intro h; exact h
  | cons r rest ih =>
    intro h
    rw [findOneAndUpdateDec]
    split
    · rename_i hc
      simp only
      unfold unsatisfiable at h ⊢
      rw [findOne] at h ⊢
      by_cases hk : keyMatches r w.id w.size w.color = true
      · rw [if_pos hk] at h
        have hk' : keyMatches { r with quantity := r.quantity - a } w.id w.size w.color = true := by
          simpa [keyMatches] using hk
        rw [if_pos hk']
        simp only [unsatAux, decide_eq_true_eq] at h ⊢
        omega
      · rw [if_neg hk] at h
        have hk' : ¬(keyMatches { r with quantity := r.quantity - a } w.id w.size w.color = true) := by
          simpa [keyMatches] using hk
        rw [if_neg hk']
        exact h
    · simp only
      unfold unsatisfiable at h ⊢
      rw [findOne] at h ⊢
      by_cases hk : keyMatches r w.id w.size w.color = true
      · rw [if_pos hk] at h ⊢
        exact h
      · rw [if_neg hk] at h ⊢
        exact ih h

theorem dec_inv (pid sz c : String) (a : Int) :
    ∀ s : Store, storeInv s → storeInv (findOneAndUpdateDec s pid sz c a).2 := by
  intro s
  induction s with
  | nil => intro h; exact h
  | cons r rest ih =>
    intro h
    have hr : 0 ≤ r.quantity := h r (List.mem_cons_self _ _)
    have hrest : storeInv rest := fun x hx => h x (List.mem_cons_of_mem _ hx)
    rw [findOneAndUpdateDec]
    split
    · rename_i hc
      intro x hx
      rcases List.mem_cons.1 hx with hx | hx
      · subst hx
        simp only
        omega
      · exact hrest x hx
    · intro x hx
      rcases List.mem_cons.1 hx with hx | hx
      · subst hx; exact hr
      · exact ih hrest x hx

theorem loop_inv :
    ∀ (items : List Item) (s : Store), storeInv s →
      ∀ ups s' tr, updateLoop items s = (Except.ok (ups, s'), tr) →
        storeInv s' := by
  intro items
  induction items with
  | nil =>
    intro s hs ups s' tr h
    rw [updateLoop] at h
    simp only [Prod.mk.injEq, Except.ok.injEq] at h
    obtain ⟨⟨-, rfl⟩, -⟩ := h
    exact hs
  | cons item rest ih =>
    intro s hs ups s' tr h
    rw [updateLoop] at h
    rcases hdec : findOneAndUpdateDec s item.id item.size item.color item.quantity with ⟨res, s1⟩
    rw [hdec] at h
    cases res with
    | none => simp at h
    | some r =>
      have hs1 : storeInv s1 := by
        have := dec_inv item.id item.size item.color item.quantity s hs
        rwa [hdec] at this
      dsimp only at h
      rcases hloop : updateLoop rest s1 with ⟨out, tr1⟩
      rw [hloop] at h
      cases out with
      | ok p =>
        rcases p with ⟨ups1, sFin⟩
        simp only [Prod.mk.injEq, Except.ok.injEq] at h
        obtain ⟨⟨-, rfl⟩, -⟩ := h
        exact ih s1 hs1 ups1 sFin tr1 hloop
      | error m => simp at h

theorem loop_err :
    ∀ (items : List Item) (s : Store), keysNodup s →
      (∀ it ∈ items, 0 < it.quantity) →
      (∃ it ∈ items, unsatisfiable s it = true) →
      ∃ m tr, updateLoop items s = (Except.error m, tr) := by
  intro items
  induction items with
  | nil =>
    intro s _ _ hex
    simp at hex
  | cons item rest ih =>
    intro s hnd hpos hex
    rcases hdec : findOneAndUpdateDec s item.id item.size item.color item.quantity with ⟨res, s1⟩
    cases res with
    | none =>
      refine ⟨updMsg item,
        [StoreOp.condDec item.id item.size item.color item.quantity], ?_⟩
      rw [updateLoop, hdec]
    | some r =>
      have hsat : ¬(unsatisfiable s item = true) := by
        intro hu
        unfold unsatisfiable at hu
        rcases hf : findOne s item.id item.size item.color with - | r0
        · have := findOne_none_dec item.id item.size item.color item.quantity s hf
          rw [hdec] at this
          simp at this
        · rw [hf] at hu
          simp only [unsatAux, decide_eq_true_eq] at hu
          have := findOne_lt_dec item.id item.size item.color item.quantity s r0 hnd hf hu
          rw [hdec] at this
          simp at this
      rcases hex with ⟨w, hw, hu⟩
      rcases List.mem_cons.1 hw with rfl | hw
      · exact absurd hu hsat
      · have hs1nd : keysNodup s1 := by
          have := dec_nodup item.id item.size item.color item.quantity s hnd
          rwa [hdec] at this
        have hu1 : unsatisfiable s1 w = true := by
          have := unsat_dec item.id item.size item.color item.quantity
            (le_of_lt (hpos item (List.mem_cons_self _ _))) w s hu
          rwa [hdec] at this
        obtain ⟨m, tr, hloop⟩ :=
          ih s1 hs1nd (fun x hx => hpos x (List.mem_cons_of_mem _ hx)) ⟨w, hw, hu1⟩
        refine ⟨m, StoreOp.condDec item.id item.size item.color item.quantity :: tr, ?_⟩
        rw [updateLoop, hdec]
        dsimp only
        rw [hloop]

theorem checkLoop_fst (s : Store) :
    ∀ items : List Item,
      (checkLoop items s).1 = items.map (fun item =>
        { id := item.id, size := item.size, color := item.color,
          available := match findOne s item.id item.size item.color with
                       | some p => p.quantity
                       | none => 0,
          requested := item.quantity }) := by
  intro items
  induction items with
  | nil => rfl
  | cons item rest ih =>
    rw [checkLoop, List.map_cons]
    simp only
    rw [ih]

theorem arrDec_noMatch (k : String) (q : Int) :
    ∀ xs : List ArrEntry, (∀ e ∈ xs, matchesSize e k = false) →
      arrDec xs k q = DecOut.noMatch := by
  intro xs
  induction xs with
  | nil => intro _; rfl
  | cons e rest ih =>
    intro h
    rw [arrDec]
    rw [if_neg (by simp [h e (List.mem_cons_self _ _)])]
    rw [ih (fun x hx => h x (List.mem_cons_of_mem _ hx))]

/-!
Claim theorems.
-/

/-- C1: for every reservation request (POST /update-stock) with two or more
lines in which at least one line is unsatisfiable (no matching inventory
record, or its quantity is less than the requested amount), the handler
returns failure and the quantity of every InventoryRecord after the call
equals its quantity before the call — no decrement applied by an earlier
line of the same request persists.  Stated for any binding environment: with
`mongoose` unbound the handler fails before touching the store, and with it
bound the thrown `Stock insuficiente` error aborts the transaction, rolling
the store back to its initial state. -/
theorem C1_atomicity (env : List String) (items : List Item) (s : Store)
    (_hlen : 2 ≤ items.length)
    (hpos : ∀ it ∈ items, 0 < it.quantity)
    (hnd : keysNodup s)
    (hun : ∃ it ∈ items, unsatisfiable s it = true) :
    (updateStockHandler env (some items) s).1.isSuccess = false ∧
    (updateStockHandler env (some items) s).2.1 = s := by
  unfold updateStockHandler
  by_cases hm : "mongoose" ∈ env
  · rw [if_pos hm]
    obtain ⟨m, tr, hloop⟩ := loop_err items s hnd hpos hun
    dsimp only
    rw [hloop]
    exact ⟨rfl, rfl⟩
  · rw [if_neg hm]
    exact ⟨rfl, rfl⟩

/-- Witness for C1 at a concrete request: store holds (A, M, red) with
quantity 5; the request asks for 3 and then 9 of it; the second line is
unsatisfiable, the handler does not succeed and the store is unchanged. -/
theorem C1_atomicity_witness :
    2 ≤ ([⟨"A", "M", "red", 3⟩, ⟨"A", "M", "red", 9⟩] : List Item).length ∧
    (∀ it ∈ ([⟨"A", "M", "red", 3⟩, ⟨"A", "M", "red", 9⟩] : List Item),
      0 < it.quantity) ∧
    keysNodup [⟨"A", "M", "red", 5⟩] ∧
    (∃ it ∈ ([⟨"A", "M", "red", 3⟩, ⟨"A", "M", "red", 9⟩] : List Item),
      unsatisfiable [⟨"A", "M", "red", 5⟩] it = true) ∧
    ((updateStockHandler ["mongoose"]
        (some [⟨"A", "M", "red", 3⟩, ⟨"A", "M", "red", 9⟩])
        [⟨"A", "M", "red", 5⟩]).1.isSuccess = false ∧
      (updateStockHandler ["mongoose"]
        (some [⟨"A", "M", "red", 3⟩, ⟨"A", "M", "red", 9⟩])
        [⟨"A", "M", "red", 5⟩]).2.1 = [⟨"A", "M", "red", 5⟩]) :=
  ⟨by decide, by decide, by decide, by decide,
    C1_atomicity ["mongoose"] [⟨"A", "M", "red", 3⟩, ⟨"A", "M", "red", 9⟩]
      [⟨"A", "M", "red", 5⟩] (by decide) (by decide) (by decide) (by decide)⟩

/-- C2: quantity is never observably negative: assuming every stored
quantity is non-negative, the conditional decrement, the stock query and
the reservation handler all preserve that invariant; a rejected decrement
leaves the store unchanged, and (under the unique index) a decrement that
would take a record's quantity below 0 is rejected and does not apply. -/
theorem C2_no_negative_stock (s : Store) (h : storeInv s) :
    (∀ pid sz c a, storeInv (findOneAndUpdateDec s pid sz c a).2) ∧
    (∀ body, storeInv (checkStockHandler body s).2.1) ∧
    (∀ env body, storeInv (updateStockHandler env body s).2.1) ∧
    (∀ pid sz c a, (findOneAndUpdateDec s pid sz c a).1 = none →
      (findOneAndUpdateDec s pid sz c a).2 = s) ∧
    (keysNodup s → ∀ pid sz c (a : Int) r, findOne s pid sz c = some r →
      r.quantity < a →
      (findOneAndUpdateDec s pid sz c a).1 = none ∧
      (findOneAndUpdateDec s pid sz c a).2 = s) := by
  refine ⟨fun pid sz c a => dec_inv pid sz c a s h, ?_, ?_, ?_, ?_⟩
  · intro body
    cases body with
    | none => exact h
    | some items => exact h
  · intro env body
    unfold updateStockHandler
    by_cases hm : "mongoose" ∈ env
    · rw [if_pos hm]
      cases body with
      | none => exact h
      | some items =>
        rcases hloop : updateLoop items s with ⟨out, tr⟩
        cases out with
        | ok p =>
          rcases p with ⟨ups, s'⟩
          simp only [hloop]
          exact loop_inv items s h ups s' tr hloop
        | error m => simp only [hloop]; exact h
    · rw [if_neg hm]
      exact h
  · intro pid sz c a
    exact dec_none_eq pid sz c a s
  · intro hnd pid sz c a r hf hlt
    have h1 := findOne_lt_dec pid sz c a s r hnd hf hlt
    exact ⟨h1, dec_none_eq pid sz c a s h1⟩

/-- Witness for C2 at a concrete store satisfying the invariant. -/
theorem C2_no_negative_stock_witness :
    storeInv [⟨"A", "M", "red", 5⟩] ∧
    ((∀ pid sz c a, storeInv (findOneAndUpdateDec [⟨"A", "M", "red", 5⟩] pid sz c a).2) ∧
    (∀ body, storeInv (checkStockHandler body [⟨"A", "M", "red", 5⟩]).2.1) ∧
    (∀ env body, storeInv (updateStockHandler env body [⟨"A", "M", "red", 5⟩]).2.1) ∧
    (∀ pid sz c a, (findOneAndUpdateDec [⟨"A", "M", "red", 5⟩] pid sz c a).1 = none →
      (findOneAndUpdateDec [⟨"A", "M", "red", 5⟩] pid sz c a).2 = [⟨"A", "M", "red", 5⟩]) ∧
    (keysNodup [⟨"A", "M", "red", 5⟩] →
      ∀ pid sz c (a : Int) r, findOne [⟨"A", "M", "red", 5⟩] pid sz c = some r →
      r.quantity < a →
      (findOneAndUpdateDec [⟨"A", "M", "red", 5⟩] pid sz c a).1 = none ∧
      (findOneAndUpdateDec [⟨"A", "M", "red", 5⟩] pid sz c a).2 = [⟨"A", "M", "red", 5⟩])) :=
  ⟨by decide, C2_no_negative_stock [⟨"A", "M", "red", 5⟩] (by decide)⟩

/-- C3: the single-line conditional decrement succeeds if and only if a
record matching the composite key exists with quantity ≥ the amount; on
success the returned quantity is the old quantity minus the amount, and on
rejection the store is unchanged.  The unique composite-key index of the
schema is assumed. -/
theorem C3_tryDecrement (s : Store) (pid sz c : String) (a : Int)
    (h : keysNodup s) :
    ((findOneAndUpdateDec s pid sz c a).1 ≠ none ↔
      ∃ r, findOne s pid sz c = some r ∧ a ≤ r.quantity) ∧
    (∀ r', (findOneAndUpdateDec s pid sz c a).1 = some r' →
      ∃ r, findOne s pid sz c = some r ∧ r'.quantity = r.quantity - a) ∧
    ((findOneAndUpdateDec s pid sz c a).1 = none →
      (findOneAndUpdateDec s pid sz c a).2 = s) := by
  refine ⟨⟨?_, ?_⟩, ?_, ?_⟩
  · intro hne
    rcases hres : (findOneAndUpdateDec s pid sz c a).1 with - | r'
    · exact absurd hres hne
    · obtain ⟨r, hf, hle, -⟩ := dec_some_char pid sz c a s r' h hres
      exact ⟨r, hf, hle⟩
  · rintro ⟨r, hf, hle⟩
    exact dec_succeeds pid sz c a s r hf hle
  · intro r' hres
    obtain ⟨r, hf, -, hr⟩ := dec_some_char pid sz c a s r' h hres
    exact ⟨r, hf, by rw [hr]⟩
  · exact dec_none_eq pid sz c a s

/-- Witness for C3 at a concrete store with a unique composite key. -/
theorem C3_tryDecrement_witness :
    keysNodup [⟨"A", "M", "red", 5⟩] ∧
    (((findOneAndUpdateDec [⟨"A", "M", "red", 5⟩] "A" "M" "red" 3).1 ≠ none ↔
      ∃ r, findOne [⟨"A", "M", "red", 5⟩] "A" "M" "red" = some r ∧ 3 ≤ r.quantity) ∧
    (∀ r', (findOneAndUpdateDec [⟨"A", "M", "red", 5⟩] "A" "M" "red" 3).1 = some r' →
      ∃ r, findOne [⟨"A", "M", "red", 5⟩] "A" "M" "red" = some r ∧
        r'.quantity = r.quantity - 3) ∧
    ((findOneAndUpdateDec [⟨"A", "M", "red", 5⟩] "A" "M" "red" 3).1 = none →
      (findOneAndUpdateDec [⟨"A", "M", "red", 5⟩] "A" "M" "red" 3).2 =
        [⟨"A", "M", "red", 5⟩])) :=
  ⟨by decide, C3_tryDecrement [⟨"A", "M", "red", 5⟩] "A" "M" "red" 3 (by decide)⟩

/-- C4 counterexample: not-found and insufficient-quantity do NOT produce
distinct error reports.  Requesting 5 of (B, L, blue) against an empty
store (no record) and against a store holding the record with quantity 2
(insufficient) yields the identical `Stock insuficiente para B-L-blue`
error. -/
theorem C4_distinct_reports_cex :
    findOne ([] : Store) "B" "L" "blue" = none ∧
    (∃ r, findOne [⟨"B", "L", "blue", 2⟩] "B" "L" "blue" = some r ∧
      r.quantity < 5) ∧
    (updateLoop [⟨"B", "L", "blue", 5⟩] []).1 =
      Except.error "Stock insuficiente para B-L-blue" ∧
    (updateLoop [⟨"B", "L", "blue", 5⟩] [⟨"B", "L", "blue", 2⟩]).1 =
      Except.error "Stock insuficiente para B-L-blue" ∧
    (updateLoop [⟨"B", "L", "blue", 5⟩] []).1 =
      (updateLoop [⟨"B", "L", "blue", 5⟩] [⟨"B", "L", "blue", 2⟩]).1 := by
  refine ⟨rfl, ⟨⟨"B", "L", "blue", 2⟩, rfl, by decide⟩, ?_, ?_, ?_⟩ <;> rfl

/-- C4 amended: for every reservation line that fails (under the unique
composite-key index), the error report is the same `Stock insuficiente para
id-size-color` message whether the record is missing or merely short of
stock — the two cases are not distinguished. -/
theorem C4_same_report (s : Store) (item : Item) (hnd : keysNodup s)
    (hun : unsatisfiable s item = true) :
    (updateLoop [item] s).1 = Except.error (updMsg item) := by
  have hnone :
      (findOneAndUpdateDec s item.id item.size item.color item.quantity).1 = none := by
    unfold unsatisfiable at hun
    rcases hf : findOne s item.id item.size item.color with - | r
    · exact findOne_none_dec item.id item.size item.color item.quantity s hf
    · rw [hf] at hun
      simp only [unsatAux, decide_eq_true_eq] at hun
      exact findOne_lt_dec item.id item.size item.color item.quantity s r hnd hf hun
  rcases hdec : findOneAndUpdateDec s item.id item.size item.color item.quantity
    with ⟨res, s1⟩
  rw [hdec] at hnone
  dsimp only at hnone
  subst hnone
  rw [updateLoop, hdec]

/-- Witness for the amended C4 in the not-found case. -/
theorem C4_same_report_witness :
    keysNodup ([] : Store) ∧
    unsatisfiable ([] : Store) ⟨"B", "L", "blue", 5⟩ = true ∧
    (updateLoop [⟨"B", "L", "blue", 5⟩] ([] : Store)).1 =
      Except.error (updMsg ⟨"B", "L", "blue", 5⟩) :=
  ⟨by decide, by decide,
    C4_same_report ([] : Store) ⟨"B", "L", "blue", 5⟩ (by decide) (by decide)⟩

/-- C5: the stock query returns one entry per input tuple in order, with
`available` the stored quantity of the matching record (0 when none
exists) and `requested` the tuple's requested quantity, without mutating
any record. -/
theorem C5_check_stock (items : List Item) (s : Store) :
    (checkStockHandler (some items) s).2.1 = s ∧
    ∃ rs, (checkStockHandler (some items) s).1 = CheckResp.ok rs ∧
      rs.length = items.length ∧
      ∀ i : Nat, rs[i]? = (items[i]?).map (fun item =>
        { id := item.id, size := item.size, color := item.color,
          available := match findOne s item.id item.size item.color with
                       | some p => p.quantity
                       | none => 0,
          requested := item.quantity }) := by
  refine ⟨rfl, (checkLoop items s).1, rfl, ?_, ?_⟩
  · rw [checkLoop_fst]
    exact List.length_map _ _
  · intro i
    rw [checkLoop_fst, List.getElem?_map]

/-- C6: the claim that a fully satisfiable request returns success with
the post-decrement quantities is contradicted by the code: with the
module's actual bindings (no `mongoose`), the handler fails with the
unbound-identifier error even on a one-line request the store can satisfy,
performing no store operation and returning no success. -/
theorem C6_success_unreachable :
    updateStockHandler stockRoutesRequires (some [⟨"A", "M", "red", 3⟩])
        [⟨"A", "M", "red", 5⟩] =
      (UpdateResp.refError "mongoose is not defined", [⟨"A", "M", "red", 5⟩], []) ∧
    (updateStockHandler stockRoutesRequires (some [⟨"A", "M", "red", 3⟩])
        [⟨"A", "M", "red", 5⟩]).1.isSuccess = false := by
  decide

/-- C7: the claim that a failing reservation yields a client-error response
naming the offending product/size/color is contradicted by the code: with
the module's actual bindings the handler dies on the unbound `mongoose`
before the loop, so the caller never receives the 400
`Stock insuficiente para A-M-red` report even when the first line is
unsatisfiable. -/
theorem C7_failure_report_unreachable :
    updateStockHandler stockRoutesRequires (some [⟨"A", "M", "red", 9⟩])
        [⟨"A", "M", "red", 5⟩] =
      (UpdateResp.refError "mongoose is not defined", [⟨"A", "M", "red", 5⟩], []) ∧
    UpdateResp.refError "mongoose is not defined" ≠
      UpdateResp.clientError (updMsg ⟨"A", "M", "red", 9⟩) := by
  decide

/-- C8 counterexample: a malformed request (body without `items`) is not
rejected as a validation (client) error: the `/check-stock` handler's
catch-all answers the generic HTTP 500 `serverError`, and the
`/update-stock` handler dies on the unbound `mongoose` without producing
any HTTP response at all. -/
theorem C8_validation_cex :
    (checkStockHandler none ([] : Store)).1 =
      CheckResp.serverError "items is not iterable" ∧
    (∀ rs, (checkStockHandler none ([] : Store)).1 ≠ CheckResp.ok rs) ∧
    (updateStockHandler stockRoutesRequires none ([] : Store)).1 =
      UpdateResp.refError "mongoose is not defined" ∧
    (∀ m, (updateStockHandler stockRoutesRequires none ([] : Store)).1 ≠
      UpdateResp.clientError m) := by
  refine ⟨rfl, ?_, by decide, ?_⟩
  · intro rs h
    simp [checkStockHandler] at h
  · intro m h
    rw [show (updateStockHandler stockRoutesRequires none ([] : Store)).1 =
      UpdateResp.refError "mongoose is not defined" by decide] at h
    simp at h

/-- C8 amended: a malformed request (missing `items`) performs no store
access whatsoever — no read, no decrement, no transaction — and leaves
every record untouched; but the error reported is the `/check-stock`
catch-all 500 (and, for `/update-stock` as written, the unbound-identifier
failure), not a validation error. -/
theorem C8_no_store_access (s : Store) :
    checkStockHandler none s = (CheckResp.serverError "items is not iterable", s, []) ∧
    updateStockHandler stockRoutesRequires none s =
      (UpdateResp.refError "mongoose is not defined", s, []) := by
  constructor
  · rfl
  · unfold updateStockHandler
    rw [if_neg (by decide)]

/-- C9: on an existing product, when no shape branch of the legacy catalog
stock handler matches — a clothing product whose stock map lacks the
`size-color` key, or a gloves product whose stock array has no entry for
the size key — the handler persists nothing (no `save`) and answers the
generic `No se pudo actualizar el stock` failure. -/
theorem C9_legacy_silent_noop
    (p : Product) (m : List (String × StockEntry)) (size color : String) (q : Int)
    (h1 : p.productType = ProductType.clothing) (h2 : p.stock = StockShape.byKey m)
    (h3 : ¬(size = "")) (h4 : ¬(color = ""))
    (h5 : List.lookup (size ++ "-" ++ color) m = none)
    (p2 : Product) (xs : List ArrEntry) (sz2 co2 : Option String) (q2 : Int)
    (g1 : p2.productType = ProductType.gloves) (g2 : p2.stock = StockShape.arr xs)
    (g3 : ∀ e ∈ xs, matchesSize e (sizeKeyOf sz2) = false) :
    legacyUpdateStock p (some size) (some color) q =
      (LegacyResp.badRequest "No se pudo actualizar el stock", none) ∧
    legacyUpdateStock p2 sz2 co2 q2 =
      (LegacyResp.badRequest "No se pudo actualizar el stock", none) := by
  constructor
  · unfold legacyUpdateStock
    rw [h1]
    dsimp only
    rw [if_neg (by simp [truthyStr, h3, h4])]
    rw [h2]
    dsimp only
    rw [h5]
  · unfold legacyUpdateStock
    rw [g1]
    dsimp only
    unfold legacyGlovesBranch
    rw [g2]
    dsimp only
    rw [arrDec_noMatch (sizeKeyOf sz2) q2 xs g3]

/-- Witness for C9: a clothing product with stock only under `M-red`,
updated at `L-blue`; and a gloves product with a single size-M array entry,
updated at size L. -/
theorem C9_legacy_silent_noop_witness :
    (Product.mk "p1" ProductType.clothing
        (StockShape.byKey [("M-red", StockEntry.obj 5)])).productType =
      ProductType.clothing ∧
    (Product.mk "p1" ProductType.clothing
        (StockShape.byKey [("M-red", StockEntry.obj 5)])).stock =
      StockShape.byKey [("M-red", StockEntry.obj 5)] ∧
    ¬("L" = "") ∧ ¬("blue" = "") ∧
    List.lookup ("L" ++ "-" ++ "blue") [("M-red", StockEntry.obj 5)] = none ∧
    (Product.mk "g1" ProductType.gloves
        (StockShape.arr [⟨some "M", none, 3⟩])).productType = ProductType.gloves ∧
    (Product.mk "g1" ProductType.gloves
        (StockShape.arr [⟨some "M", none, 3⟩])).stock =
      StockShape.arr [⟨some "M", none, 3⟩] ∧
    (∀ e ∈ [(⟨some "M", none, 3⟩ : ArrEntry)],
      matchesSize e (sizeKeyOf (some "L")) = false) ∧
    (legacyUpdateStock
        (Product.mk "p1" ProductType.clothing
          (StockShape.byKey [("M-red", StockEntry.obj 5)]))
        (some "L") (some "blue") 1 =
      (LegacyResp.badRequest "No se pudo actualizar el stock", none) ∧
    legacyUpdateStock
        (Product.mk "g1" ProductType.gloves (StockShape.arr [⟨some "M", none, 3⟩]))
        (some "L") none 1 =
      (LegacyResp.badRequest "No se pudo actualizar el stock", none)) :=
  ⟨rfl, rfl, by decide, by decide, by decide, rfl, rfl, by decide,
    C9_legacy_silent_noop
      (Product.mk "p1" ProductType.clothing
        (StockShape.byKey [("M-red", StockEntry.obj 5)]))
      [("M-red", StockEntry.obj 5)] "L" "blue" 1 rfl rfl
      (by decide) (by decide) (by decide)
      (Product.mk "g1" ProductType.gloves (StockShape.arr [⟨some "M", none, 3⟩]))
      [⟨some "M", none, 3⟩] (some "L") none 1 rfl rfl (by decide)⟩

/-- C10: the reservation handler module binds only `express`, `router` and
`Stock`; `mongoose` is unbound, and since `mongoose.startSession()` is
evaluated before the try block, every call to `/update-stock` — whatever
the body and store — fails with the unbound-identifier error, performs no
store operation, leaves the store unchanged, and never returns success. -/
theorem C10_unbound_mongoose :
    "mongoose" ∉ stockRoutesRequires ∧
    ∀ (body : Option (List Item)) (s : Store),
      updateStockHandler stockRoutesRequires body s =
        (UpdateResp.refError "mongoose is not defined", s, []) := by
  refine ⟨by decide, fun body s => ?_⟩
  unfold updateStockHandler
  rw [if_neg (by decide)]

end Tienda
